import Mathlib

/-!
Shallow embedding of the product-catalog and sales-ledger service of
`server.js` (Node/Express, JSON-file persistence).

Modelling conventions:
* JSON numbers are rationals (`ℚ`); `toFixed(2)`-rounding and `parseInt`
  truncation are modelled explicitly (`round2`, `jsParseInt`).
* Request bodies are records of optional fields (`none` = the field is
  absent from the JSON body, i.e. `undefined` after destructuring).
* The two persisted collections (`productos.json`, `ventas.json`) form the
  state `DB`; each endpoint handler is a function `body → DB → result × DB`
  that returns the unchanged `DB` on every early-`return` error path,
  mirroring the fact that `escribirJSON` is only reached on success.
* The sale id (`uuidv4()`) and timestamp (`new Date()`) are produced by the
  environment (randomness / real time) and are not part of the embedded
  state; no claim depends on them.
-/

namespace Tienda

/-- A JSON scalar as far as the validations of `POST /producto` can
distinguish one (`typeof x !== 'number'`, `Number.isInteger(x)`). -/
inductive JsVal where
  | num (q : ℚ)
  | str (s : String)
  | jbool (b : Bool)
  | jnull
deriving DecidableEq

/-- `parseFloat(x.toFixed(2))`: rounding to 2 decimal places.  ECMAScript
`toFixed` picks the integer `n` minimising `|n / 10^2 - x|` and on a tie the
larger `n`, i.e. round-half-up. -/
def round2 (q : ℚ) : ℚ := (⌊q * 100 + 1 / 2⌋ : ℚ) / 100

/-- `parseInt(x, 10)` applied to a JS number in the plain-decimal range:
truncation toward zero. -/
def jsParseInt (q : ℚ) : Int := if 0 ≤ q then ⌊q⌋ else -⌊-q⌋

/-- A row of `productos.json`.  `stock` is kept as a JS number (`ℚ`): the
code only ever writes integers into it via `POST`/`PUT`, but `POST /venta`
subtracts the raw `cantidad`. -/
structure Producto where
  id_producto : Int
  nombre : String
  precio : ℚ
  activo : Bool
  stock : ℚ
deriving DecidableEq

/-- A line item of a recorded sale (element of `venta.items`). -/
structure DetalleItem where
  id_producto : Int
  nombre : String
  cantidad : ℚ
  precio_unitario : ℚ
  subtotal : ℚ
deriving DecidableEq

/-- A row of `ventas.json` (minus the environment-generated `id_venta`
and `fecha`). -/
structure Venta where
  id_usuario : Option Int
  items : List DetalleItem
  total : ℚ
deriving DecidableEq

/-- The persisted state: the contents of the two JSON documents. -/
structure DB where
  productos : List Producto
  ventas : List Venta
deriving DecidableEq

/-- The three structured client errors of the service, tagged with their
message. -/
inductive ApiError where
  | validation (msg : String)
  | notFound (msg : String)
  | conflict (msg : String)
deriving DecidableEq

/-- HTTP status of a response: 400/404/409 for the structured errors. -/
def ApiError.status : ApiError → Nat
  | .validation _ => 400
  | .notFound _ => 404
  | .conflict _ => 409

/-- HTTP status of a creation endpoint response (`201` on success). -/
def statusOf {α : Type} : Except ApiError α → Nat
  | .ok _ => 201
  | .error e => e.status

/-- Body of `POST /producto` after destructuring `{ nombre, precio, stock }`. -/
structure ProductoBody where
  nombre : Option String
  precio : Option JsVal
  stock : Option JsVal
deriving DecidableEq

/-- Body of `PUT /producto`.  The handler applies `nombre.trim()`,
`parseFloat(parseFloat(precio).toFixed(2))`, `parseInt(stock, 10)` and
`Boolean(activo)`, so the fields are modelled at their coerced types. -/
structure PutBody where
  id_producto : Option Int
  nombre : Option String
  precio : Option ℚ
  stock : Option ℚ
  activo : Option Bool
deriving DecidableEq

/-- Body of `DELETE /producto`. -/
structure DeleteBody where
  id_producto : Option Int
deriving DecidableEq

/-- One entry of the `items` array of `POST /venta`. -/
structure ItemVenta where
  id_producto : Option Int
  cantidad : Option ℚ
deriving DecidableEq

/-- Body of `POST /venta`.  `items = none` models a body whose `items` is
absent or not an array (`Array.isArray` fails). -/
structure VentaBody where
  items : Option (List ItemVenta)
  id_usuario : Option Int
deriving DecidableEq

/-- `GET /productos`: the active products (`productos.filter(p => p.activo)`). -/
def getProductos (db : DB) : List Producto :=
  db.productos.filter (fun p => p.activo)

/-- `GET /ventas`: the whole persisted sales collection. -/
def getVentas (db : DB) : List Venta :=
  db.ventas

/-- The sequential id of `POST /producto`:
`productos.length > 0 ? Math.max(...productos.map(p => p.id_producto)) + 1 : 1`. -/
def nuevoId (productos : List Producto) : Int :=
  match productos.map (fun p => p.id_producto) with
  | [] => 1
  | i :: is => is.foldl max i + 1

/-- `POST /producto`.  Mirrors the three validation gates of the handler and
the append-then-persist on success; every early `return` leaves the state
untouched. -/
def postProducto (body : ProductoBody) (db : DB) : Except ApiError Producto × DB :=
  if body.nombre = none ∨ body.nombre = some "" ∨ body.precio = none ∨ body.stock = none then
    (.error (.validation "Faltan campos: nombre, precio y stock son requeridos."), db)
  else
    match body.precio with
    | some (.num precio) =>
      if precio < 0 then
        (.error (.validation "El precio debe ser un numero positivo."), db)
      else
        match body.stock with
        | some (.num stock) =>
          if stock.den ≠ 1 ∨ stock < 0 then
            (.error (.validation "El stock debe ser un entero >= 0."), db)
          else
            let nuevoProducto : Producto :=
              { id_producto := nuevoId db.productos
                nombre := (body.nombre.getD "").trim
                precio := round2 precio
                activo := true
                stock := stock }
            (.ok nuevoProducto, { db with productos := db.productos ++ [nuevoProducto] })
        | _ => (.error (.validation "El stock debe ser un entero >= 0."), db)
    | _ => (.error (.validation "El precio debe ser un numero positivo."), db)

/-- The in-place mutation of
`productos.findIndex(p => p.id_producto === target)` followed by an update of
`productos[idx]`: returns the updated element together with the updated list,
or `none` when `findIndex` yields `-1`. -/
def actualizarPrimero (f : Producto → Producto) (target : Int) :
    List Producto → Option (Producto × List Producto)
  | [] => none
  | p :: ps =>
    if p.id_producto == target then
      some (f p, f p :: ps)
    else
      match actualizarPrimero f target ps with
      | some (q, ps2) => some (q, p :: ps2)
      | none => none

/-- The field-wise patch of `PUT /producto`: each of the four
`if (campo !== undefined)` assignments in handler order. -/
def aplicarCambios (body : PutBody) (p : Producto) : Producto :=
  let p1 := match body.nombre with
    | some s => { p with nombre := s.trim }
    | none => p
  let p2 := match body.precio with
    | some q => { p1 with precio := round2 q }
    | none => p1
  let p3 := match body.stock with
    | some q => { p2 with stock := (jsParseInt q : ℚ) }
    | none => p2
  match body.activo with
  | some b => { p3 with activo := b }
  | none => p3

/-- `PUT /producto`: falsy-id check, lookup, field-wise patch, persist. -/
def putProducto (body : PutBody) (db : DB) : Except ApiError Producto × DB :=
  if body.id_producto = none ∨ body.id_producto = some 0 then
    (.error (.validation "Se requiere id_producto."), db)
  else
    match actualizarPrimero (aplicarCambios body) (body.id_producto.getD 0) db.productos with
    | none => (.error (.notFound "Producto no encontrado."), db)
    | some (p2, productos2) => (.ok p2, { db with productos := productos2 })

/-- `DELETE /producto`: soft delete, `productos[idx].activo = false`. -/
def deleteProducto (body : DeleteBody) (db : DB) : Except ApiError Unit × DB :=
  if body.id_producto = none ∨ body.id_producto = some 0 then
    (.error (.validation "Se requiere id_producto."), db)
  else
    match actualizarPrimero (fun p => { p with activo := false })
        (body.id_producto.getD 0) db.productos with
    | none => (.error (.notFound "Producto no encontrado."), db)
    | some (_, productos2) => (.ok (), { db with productos := productos2 })

/-- The per-item payload check of `POST /venta`:
`!item.id_producto || !item.cantidad || item.cantidad <= 0` (an item passes
iff none of the three holds; `0` is falsy). -/
def itemValido (it : ItemVenta) : Bool :=
  match it.id_producto, it.cantidad with
  | some pid, some c => pid != 0 && c != 0 && !(decide (c ≤ 0))
  | _, _ => false

/-- The resolve-and-check loop of `POST /venta`: for each item, find an
active product with that id in the one-time snapshot `productos` (which the
loop never mutates), reject on absence (404) or insufficient stock (409),
and otherwise push the snapshotted line item.  The first offending item
determines the error, as with the handler's early `return`s. -/
def buildDetalles (productos : List Producto) :
    List ItemVenta → Except ApiError (List DetalleItem)
  | [] => .ok []
  | it :: rest =>
    match productos.find? (fun p => p.id_producto == it.id_producto.getD 0 && p.activo) with
    | none => .error (.notFound "Producto no encontrado o inactivo.")
    | some producto =>
      if producto.stock < it.cantidad.getD 0 then
        .error (.conflict "Stock insuficiente.")
      else
        match buildDetalles productos rest with
        | .error e => .error e
        | .ok ds =>
          .ok ({ id_producto := producto.id_producto
                 nombre := producto.nombre
                 cantidad := it.cantidad.getD 0
                 precio_unitario := producto.precio
                 subtotal := round2 (producto.precio * it.cantidad.getD 0) } :: ds)

/-- The decrement loop of `POST /venta`: for each line item, mutate the
first product of the (current) list with that id by
`productos[idx].stock -= item.cantidad`.  The `none` fallback is unreachable
for line items produced by `buildDetalles` (the decrement loop removes no
product); in the JS code it would be `productos[-1].stock`, a `TypeError`
thrown before any `escribirJSON`. -/
def descontarStock (productos : List Producto) : List DetalleItem → List Producto
  | [] => productos
  | d :: ds =>
    match actualizarPrimero (fun p => { p with stock := p.stock - d.cantidad })
        d.id_producto productos with
    | some (_, ps2) => descontarStock ps2 ds
    | none => descontarStock productos ds

/-- `POST /venta`: payload validation, resolve-and-check against the
snapshot, totals, decrement, append to the ledger.  Both `escribirJSON`
calls happen only after every check has passed. -/
def postVenta (body : VentaBody) (db : DB) : Except ApiError Venta × DB :=
  match body.items with
  | none => (.error (.validation "El carrito esta vacio o el formato es incorrecto."), db)
  | some items =>
    if items = [] then
      (.error (.validation "El carrito esta vacio o el formato es incorrecto."), db)
    else if items.all itemValido then
      match buildDetalles db.productos items with
      | .error e => (.error e, db)
      | .ok detalles =>
        let total := round2 (detalles.foldl (fun acc d => acc + d.subtotal) 0)
        let venta : Venta :=
          { id_usuario := body.id_usuario, items := detalles, total := total }
        (.ok venta,
          { productos := descontarStock db.productos detalles
            ventas := db.ventas ++ [venta] })
    else
      (.error (.validation "Cada item debe tener id_producto y cantidad > 0."), db)

/-- Sum of the `cantidad` of the line items that reference a given product id. -/
def sumCant (detalles : List DetalleItem) (x : Int) : ℚ :=
  ((detalles.filter (fun d => d.id_producto == x)).map (fun d => d.cantidad)).sum

/-- Every product of the list has non-negative stock (the invariant of §3). -/
def nonNegStock (ps : List Producto) : Prop := ∀ p ∈ ps, 0 ≤ p.stock

/-- No product of the list carries the given id. -/
def sinProducto (ps : List Producto) (x : Int) : Prop := ∀ p ∈ ps, p.id_producto ≠ x

/-- Every product of the list with the given id has the given stock. -/
def stockDe (ps : List Producto) (x : Int) (s : ℚ) : Prop :=
  ∀ p ∈ ps, p.id_producto = x → p.stock = s

/-- The id-assignment contract of `POST /producto` on a state `db`: the new
product's id is 1 on an empty collection and otherwise `m + 1` for the
maximal existing id `m` (so it is strictly above every existing id, active
or deactivated), and the new row is appended. -/
def asignacionId (db : DB) (p : Producto) (db2 : DB) : Prop :=
  (db.productos = [] → p.id_producto = 1) ∧
  (∀ q ∈ db.productos, q.id_producto < p.id_producto) ∧
  (db.productos ≠ [] → ∃ q ∈ db.productos, p.id_producto = q.id_producto + 1) ∧
  db2.productos = db.productos ++ [p]

/-- The arithmetic contract of a recorded sale: each line's subtotal is the
2-decimal rounding of quantity × unit price, and the total is the 2-decimal
rounding of the sum of the subtotals. -/
def ventaBienCalculada (v : Venta) : Prop :=
  (∀ d ∈ v.items, d.subtotal = round2 (d.cantidad * d.precio_unitario)) ∧
  v.total = round2 ((v.items.map (fun d => d.subtotal)).sum)

/-! Helper lemmas. -/

theorem jsParseInt_nonneg {q : ℚ} (h : 0 ≤ q) : (0 : ℚ) ≤ (jsParseInt q : ℚ) := by
  unfold jsParseInt
  rw [if_pos h]
  exact_mod_cast Int.le_floor.mpr (by exact_mod_cast h)

theorem foldl_subtotal_sum (ds : List DetalleItem) (a : ℚ) :
    ds.foldl (fun acc d => acc + d.subtotal) a =
      a + (ds.map (fun d => d.subtotal)).sum := by
  induction ds generalizing a with
  | nil => simp
  | cons d ds ih => rw [List.foldl_cons, ih, List.map_cons, List.sum_cons]; ring

theorem le_foldl_max_self (i : Int) (is : List Int) : i ≤ is.foldl max i := by
  induction is generalizing i with
  | nil => exact le_refl i
  | cons a as ih => exact le_trans (le_max_left i a) (ih (max i a))

theorem le_foldl_max_of_mem {j : Int} {is : List Int} (i : Int) (h : j ∈ is) :
    j ≤ is.foldl max i := by
  induction is generalizing i with
  | nil => cases h
  | cons a as ih =>
    rcases List.mem_cons.mp h with rfl | h2
    · exact le_trans (le_max_right i j) (le_foldl_max_self _ as)
    · exact ih (max i a) h2

theorem foldl_max_mem (i : Int) (is : List Int) :
    is.foldl max i = i ∨ is.foldl max i ∈ is := by
  induction is generalizing i with
  | nil => left; rfl
  | cons a as ih =>
    rw [List.foldl_cons]
    rcases ih (max i a) with h | h
    · rcases max_choice i a with h2 | h2
      · left; rw [h, h2]
      · right; rw [h, h2]; exact List.mem_cons_self a as
    · right; exact List.mem_cons_of_mem a h

theorem actualizarPrimero_spec {f : Producto → Producto} {t : Int}
    {ps ps2 : List Producto} {q : Producto}
    (h : actualizarPrimero f t ps = some (q, ps2)) :
    (∃ p ∈ ps, p.id_producto = t ∧ q = f p) ∧
    ∀ x ∈ ps2, x ∈ ps ∨ ∃ p ∈ ps, p.id_producto = t ∧ x = f p := by
  induction ps generalizing ps2 q with
  | nil => simp [actualizarPrimero] at h
  | cons p ps ih =>
    rw [actualizarPrimero] at h
    split at h
    case isTrue hcond =>
      have hpt : p.id_producto = t := by simpa using hcond
      simp only [Option.some.injEq, Prod.mk.injEq] at h
      obtain ⟨rfl, rfl⟩ := h
      refine ⟨⟨p, List.mem_cons_self p ps, hpt, rfl⟩, ?_⟩
      intro x hx
      rcases List.mem_cons.mp hx with rfl | hx2
      · exact Or.inr ⟨p, List.mem_cons_self p ps, hpt, rfl⟩
      · exact Or.inl (List.mem_cons_of_mem p hx2)
    case isFalse hcond =>
      cases hrec : actualizarPrimero f t ps with
      | none => rw [hrec] at h; simp at h
      | some r =>
        obtain ⟨q0, ps20⟩ := r
        rw [hrec] at h
        simp only [Option.some.injEq, Prod.mk.injEq] at h
        obtain ⟨rfl, rfl⟩ := h
        obtain ⟨⟨p0, hp0, hp0t, hq0⟩, hmem⟩ := ih hrec
        refine ⟨⟨p0, List.mem_cons_of_mem p hp0, hp0t, hq0⟩, ?_⟩
        intro x hx
        rcases List.mem_cons.mp hx with rfl | hx2
        · exact Or.inl (List.mem_cons_self x ps)
        · rcases hmem x hx2 with hx3 | ⟨p1, hp1, hp1t, hx3⟩
          · exact Or.inl (List.mem_cons_of_mem p hx3)
          · exact Or.inr ⟨p1, List.mem_cons_of_mem p hp1, hp1t, hx3⟩

theorem actualizarPrimero_eq_none {f : Producto → Producto} {t : Int}
    {ps : List Producto} :
    actualizarPrimero f t ps = none ↔ ∀ p ∈ ps, p.id_producto ≠ t := by
  induction ps with
  | nil => simp [actualizarPrimero]
  | cons p ps ih =>
    rw [actualizarPrimero]
    by_cases hb : p.id_producto = t
    · simp [hb]
    · rw [if_neg (by simpa using hb)]
      cases hrec : actualizarPrimero f t ps with
      | none =>
        have hall := ih.mp hrec
        simp [List.forall_mem_cons, hb]
        exact hall
      | some r =>
        obtain ⟨q0, ps20⟩ := r
        constructor
        · intro h
          simp at h
        · intro h
          have hn : actualizarPrimero f t ps = none :=
            ih.mpr (fun p2 hp2 => h p2 (List.mem_cons_of_mem p hp2))
          rw [hrec] at hn
          simp at hn

theorem map_if_no_match {t : Int} (f : Producto → Producto) {ps : List Producto}
    (h : ∀ p ∈ ps, p.id_producto ≠ t) :
    ps.map (fun p => if p.id_producto = t then f p else p) = ps := by
  have h2 : ∀ p ∈ ps, (if p.id_producto = t then f p else p) = p := by
    intro p hp
    rw [if_neg (h p hp)]
  calc ps.map (fun p => if p.id_producto = t then f p else p)
      = ps.map (fun p => p) := List.map_congr_left h2
    _ = ps := List.map_id' ps

theorem actualizarPrimero_eq_map {f : Producto → Producto} {t : Int}
    {ps ps2 : List Producto} {q : Producto}
    (hnd : (ps.map (fun p => p.id_producto)).Nodup)
    (h : actualizarPrimero f t ps = some (q, ps2)) :
    ps2 = ps.map (fun p => if p.id_producto = t then f p else p) := by
  induction ps generalizing ps2 q with
  | nil => simp [actualizarPrimero] at h
  | cons p ps ih =>
    rw [List.map_cons, List.nodup_cons] at hnd
    rw [actualizarPrimero] at h
    split at h
    case isTrue hcond =>
      have hpt : p.id_producto = t := by simpa using hcond
      simp only [Option.some.injEq, Prod.mk.injEq] at h
      obtain ⟨rfl, rfl⟩ := h
      rw [List.map_cons, if_pos hpt, map_if_no_match]
      intro p2 hp2 hp2t
      apply hnd.1
      have hm : p2.id_producto ∈ ps.map (fun p => p.id_producto) :=
        List.mem_map_of_mem _ hp2
      rwa [hp2t, ← hpt] at hm
    case isFalse hcond =>
      have hpt : ¬ p.id_producto = t := by simpa using hcond
      cases hrec : actualizarPrimero f t ps with
      | none => rw [hrec] at h; simp at h
      | some r =>
        obtain ⟨q0, ps20⟩ := r
        rw [hrec] at h
        simp only [Option.some.injEq, Prod.mk.injEq] at h
        obtain ⟨rfl, rfl⟩ := h
        rw [List.map_cons, if_neg hpt, ih hnd.2 hrec]

theorem actualizarPrimero_idem {f : Producto → Producto} {t : Int}
    {ps ps2 : List Producto} {q : Producto}
    (hfid : ∀ p, (f p).id_producto = p.id_producto)
    (hff : ∀ p, f (f p) = f p)
    (h : actualizarPrimero f t ps = some (q, ps2)) :
    actualizarPrimero f t ps2 = some (q, ps2) := by
  induction ps generalizing ps2 q with
  | nil => simp [actualizarPrimero] at h
  | cons p ps ih =>
    rw [actualizarPrimero] at h
    split at h
    case isTrue hcond =>
      have hpt : p.id_producto = t := by simpa using hcond
      simp only [Option.some.injEq, Prod.mk.injEq] at h
      obtain ⟨rfl, rfl⟩ := h
      rw [actualizarPrimero, if_pos (by simp [hfid, hpt]), hff]
    case isFalse hcond =>
      cases hrec : actualizarPrimero f t ps with
      | none => rw [hrec] at h; simp at h
      | some r =>
        obtain ⟨q0, ps20⟩ := r
        rw [hrec] at h
        simp only [Option.some.injEq, Prod.mk.injEq] at h
        obtain ⟨rfl, rfl⟩ := h
        rw [actualizarPrimero, if_neg hcond, ih hrec]

theorem sumCant_nil (x : Int) : sumCant [] x = 0 := by
  simp [sumCant]

theorem sumCant_cons (d : DetalleItem) (ds : List DetalleItem) (x : Int) :
    sumCant (d :: ds) x =
      (if d.id_producto = x then d.cantidad else 0) + sumCant ds x := by
  by_cases hd : d.id_producto = x
  · simp [sumCant, List.filter_cons, hd]
  · simp [sumCant, List.filter_cons, hd]

theorem ids_map_if (f : Producto → Producto)
    (hf : ∀ p, (f p).id_producto = p.id_producto) (t : Int) (ps : List Producto) :
    (ps.map (fun p => if p.id_producto = t then f p else p)).map
        (fun p => p.id_producto) =
      ps.map (fun p => p.id_producto) := by
  rw [List.map_map]
  apply List.map_congr_left
  intro p _
  by_cases h : p.id_producto = t <;> simp [h, hf]

theorem descontar_eq_map {ps : List Producto} {ds : List DetalleItem}
    (hnd : (ps.map (fun p => p.id_producto)).Nodup) :
    descontarStock ps ds =
      ps.map (fun p => { p with stock := p.stock - sumCant ds p.id_producto }) := by
  induction ds generalizing ps with
  | nil =>
    rw [descontarStock]
    have h2 : ∀ p ∈ ps,
        ({ p with stock := p.stock - sumCant [] p.id_producto } : Producto) =
          (fun p => p) p := by
      intro p _
      have h3 : p.stock - sumCant [] p.id_producto = p.stock := by
        rw [sumCant_nil, sub_zero]
      rw [h3]
    rw [List.map_congr_left h2, List.map_id']
  | cons d ds ih =>
    rw [descontarStock]
    cases hap : actualizarPrimero (fun p => { p with stock := p.stock - d.cantidad })
        d.id_producto ps with
    | none =>
      have hnone := actualizarPrimero_eq_none.mp hap
      rw [ih hnd]
      apply List.map_congr_left
      intro p hp
      have hne : d.id_producto ≠ p.id_producto := fun h => hnone p hp h.symm
      rw [sumCant_cons, if_neg hne, zero_add]
    | some r =>
      obtain ⟨q, ps2⟩ := r
      have hps2 := actualizarPrimero_eq_map hnd hap
      have hids : (ps2.map (fun p => p.id_producto)).Nodup := by
        rw [hps2, ids_map_if]
        · exact hnd
        · intro p
          by_cases h : p.id_producto = d.id_producto <;> rfl
      show descontarStock ps2 ds = _
      rw [ih hids, hps2, List.map_map]
      apply List.map_congr_left
      intro p hp
      by_cases hid : p.id_producto = d.id_producto
      · simp only [Function.comp_apply, if_pos hid]
        rw [sumCant_cons, if_pos hid.symm, sub_sub]
      · simp only [Function.comp_apply, if_neg hid]
        rw [sumCant_cons, if_neg (fun h => hid h.symm), zero_add]

theorem buildDetalles_mem {ps : List Producto} {items : List ItemVenta}
    {ds : List DetalleItem} (h : buildDetalles ps items = .ok ds) :
    ∀ d ∈ ds, ∃ p ∈ ps, p.activo = true ∧ d.id_producto = p.id_producto ∧
      d.nombre = p.nombre ∧ d.precio_unitario = p.precio ∧
      d.cantidad ≤ p.stock ∧ d.subtotal = round2 (p.precio * d.cantidad) := by
  induction items generalizing ds with
  | nil =>
    rw [buildDetalles] at h
    simp only [Except.ok.injEq] at h
    subst h
    intro d hd
    cases hd
  | cons it rest ih =>
    rw [buildDetalles] at h
    cases hf : ps.find?
        (fun p => p.id_producto == it.id_producto.getD 0 && p.activo) with
    | none =>
      rw [hf] at h
      simp at h
    | some producto =>
      rw [hf] at h
      simp only [] at h
      by_cases hlt : producto.stock < it.cantidad.getD 0
      · rw [if_pos hlt] at h
        simp at h
      · rw [if_neg hlt] at h
        cases hrec : buildDetalles ps rest with
        | error e =>
          rw [hrec] at h
          simp at h
        | ok ds0 =>
          rw [hrec] at h
          simp only [Except.ok.injEq] at h
          subst h
          intro d hd
          rcases List.mem_cons.mp hd with rfl | hd2
          · have hpred := List.find?_some hf
            simp only [Bool.and_eq_true] at hpred
            refine ⟨producto, List.mem_of_find?_eq_some hf, hpred.2, rfl, rfl, rfl,
              not_lt.mp hlt, rfl⟩
          · exact ih hrec d hd2

theorem buildDetalles_ids {ps : List Producto} {items : List ItemVenta}
    {ds : List DetalleItem} (h : buildDetalles ps items = .ok ds) :
    ds.map (fun d => d.id_producto) = items.map (fun it => it.id_producto.getD 0) ∧
    ds.map (fun d => d.cantidad) = items.map (fun it => it.cantidad.getD 0) := by
  induction items generalizing ds with
  | nil =>
    rw [buildDetalles] at h
    simp only [Except.ok.injEq] at h
    subst h
    exact ⟨rfl, rfl⟩
  | cons it rest ih =>
    rw [buildDetalles] at h
    cases hf : ps.find?
        (fun p => p.id_producto == it.id_producto.getD 0 && p.activo) with
    | none =>
      rw [hf] at h
      simp at h
    | some producto =>
      rw [hf] at h
      simp only [] at h
      by_cases hlt : producto.stock < it.cantidad.getD 0
      · rw [if_pos hlt] at h
        simp at h
      · rw [if_neg hlt] at h
        cases hrec : buildDetalles ps rest with
        | error e =>
          rw [hrec] at h
          simp at h
        | ok ds0 =>
          rw [hrec] at h
          simp only [Except.ok.injEq] at h
          subst h
          have hpred := List.find?_some hf
          simp only [Bool.and_eq_true, beq_iff_eq] at hpred
          obtain ⟨hid, _⟩ := hpred
          refine ⟨?_, ?_⟩
          · rw [List.map_cons, List.map_cons, (ih hrec).1, hid]
          · rw [List.map_cons, List.map_cons, (ih hrec).2]

theorem buildDetalles_ok_of {ps : List Producto} {items : List ItemVenta}
    (h : ∀ it ∈ items, ∃ p,
      ps.find? (fun q => q.id_producto == it.id_producto.getD 0 && q.activo) = some p ∧
      ¬ p.stock < it.cantidad.getD 0) :
    ∃ ds, buildDetalles ps items = .ok ds := by
  induction items with
  | nil => exact ⟨[], rfl⟩
  | cons it rest ih =>
    obtain ⟨p, hp, hstock⟩ := h it (List.mem_cons_self it rest)
    obtain ⟨ds, hds⟩ := ih (fun j hj => h j (List.mem_cons_of_mem it hj))
    refine ⟨{ id_producto := p.id_producto
              nombre := p.nombre
              cantidad := it.cantidad.getD 0
              precio_unitario := p.precio
              subtotal := round2 (p.precio * it.cantidad.getD 0) } :: ds, ?_⟩
    rw [buildDetalles]
    simp only [hp, if_neg hstock, hds]

theorem buildDetalles_error_notFound {ps : List Producto} {pre : List ItemVenta}
    {bad : ItemVenta} (rest : List ItemVenta)
    (hpre : ∀ j ∈ pre, ∃ p,
      ps.find? (fun q => q.id_producto == j.id_producto.getD 0 && q.activo) = some p ∧
      ¬ p.stock < j.cantidad.getD 0)
    (hbad : ps.find?
      (fun q => q.id_producto == bad.id_producto.getD 0 && q.activo) = none) :
    buildDetalles ps (pre ++ bad :: rest) =
      .error (.notFound "Producto no encontrado o inactivo.") := by
  induction pre with
  | nil =>
    rw [List.nil_append, buildDetalles]
    simp only [hbad]
  | cons j pre ih =>
    obtain ⟨p, hp, hstock⟩ := hpre j (List.mem_cons_self j pre)
    rw [List.cons_append, buildDetalles]
    simp only [hp, if_neg hstock,
      ih (fun k hk => hpre k (List.mem_cons_of_mem j hk))]

theorem find?_active_of_nodup {ps : List Producto} {p : Producto}
    (hnd : (ps.map (fun q => q.id_producto)).Nodup) (hp : p ∈ ps)
    (ha : p.activo = true) :
    ps.find? (fun q => q.id_producto == p.id_producto && q.activo) = some p := by
  induction ps with
  | nil => cases hp
  | cons a ps ih =>
    rw [List.map_cons, List.nodup_cons] at hnd
    rcases List.mem_cons.mp hp with rfl | hp2
    · rw [List.find?_cons_of_pos]
      simp [ha]
    · rw [List.find?_cons_of_neg, ih hnd.2 hp2]
      have hne : a.id_producto ≠ p.id_producto := fun he =>
        hnd.1 (he ▸ List.mem_map_of_mem _ hp2)
      simp [hne]

theorem sumCant_all {ds : List DetalleItem} {x : Int}
    (h : ∀ d ∈ ds, d.id_producto = x) :
    sumCant ds x = (ds.map (fun d => d.cantidad)).sum := by
  unfold sumCant
  rw [List.filter_eq_self.mpr (fun d hd => by simp [h d hd])]

theorem sumCant_single {ds : List DetalleItem} {d : DetalleItem}
    (hnd : (ds.map (fun e => e.id_producto)).Nodup) (hd : d ∈ ds) :
    sumCant ds d.id_producto = d.cantidad := by
  induction ds with
  | nil => cases hd
  | cons e ds ih =>
    rw [List.map_cons, List.nodup_cons] at hnd
    rcases List.mem_cons.mp hd with rfl | hd2
    · rw [sumCant_cons, if_pos rfl]
      have h0 : sumCant ds d.id_producto = 0 := by
        unfold sumCant
        rw [List.filter_eq_nil_iff.mpr, List.map_nil, List.sum_nil]
        intro e2 he2
        have hne : e2.id_producto ≠ d.id_producto := fun he =>
          hnd.1 (he ▸ List.mem_map_of_mem _ he2)
        simp [hne]
      rw [h0, add_zero]
    · rw [sumCant_cons, if_neg, ih hnd.2 hd2, zero_add]
      intro he
      exact hnd.1 (by rw [he]; exact List.mem_map_of_mem _ hd2)

theorem sumCant_zero_of_no_match {ds : List DetalleItem} {x : Int}
    (h : ∀ d ∈ ds, d.id_producto ≠ x) : sumCant ds x = 0 := by
  unfold sumCant
  rw [List.filter_eq_nil_iff.mpr, List.map_nil, List.sum_nil]
  intro d hd
  simp [h d hd]

theorem aplicarCambios_eq (body : PutBody) (p : Producto) :
    aplicarCambios body p =
      { id_producto := p.id_producto
        nombre := match body.nombre with
          | some s => s.trim
          | none => p.nombre
        precio := match body.precio with
          | some q => round2 q
          | none => p.precio
        activo := match body.activo with
          | some b => b
          | none => p.activo
        stock := match body.stock with
          | some q => ((jsParseInt q : Int) : ℚ)
          | none => p.stock } := by
  obtain ⟨i, n, pr, st, ac⟩ := body
  cases n <;> cases pr <;> cases st <;> cases ac <;> rfl

theorem nuevoId_spec (ps : List Producto) :
    (ps = [] → nuevoId ps = 1) ∧
    (∀ q ∈ ps, q.id_producto < nuevoId ps) ∧
    (ps ≠ [] → ∃ q ∈ ps, nuevoId ps = q.id_producto + 1) := by
  cases ps with
  | nil => simp [nuevoId]
  | cons r rs =>
    have hn : nuevoId (r :: rs) =
        (rs.map (fun p2 => p2.id_producto)).foldl max r.id_producto + 1 := by
      rw [nuevoId, List.map_cons]
    refine ⟨by simp, ?_, ?_⟩
    · intro q hq
      rw [hn]
      have hle : q.id_producto ≤
          (rs.map (fun p2 => p2.id_producto)).foldl max r.id_producto := by
        rcases List.mem_cons.mp hq with rfl | hq2
        · exact le_foldl_max_self _ _
        · exact le_foldl_max_of_mem _ (List.mem_map_of_mem _ hq2)
      omega
    · intro h0
      rcases foldl_max_mem r.id_producto (rs.map (fun p2 => p2.id_producto)) with hm | hm
      · exact ⟨r, List.mem_cons_self r rs, by rw [hn, hm]⟩
      · obtain ⟨q, hq, hqid⟩ := List.mem_map.mp hm
        exact ⟨q, List.mem_cons_of_mem r hq, by rw [hn, hqid]⟩

theorem postProducto_inv {body : ProductoBody} {db : DB} {p : Producto} {db2 : DB}
    (h : postProducto body db = (.ok p, db2)) :
    ∃ precio stock,
      body.precio = some (.num precio) ∧ body.stock = some (.num stock) ∧
      ¬ precio < 0 ∧ stock.den = 1 ∧ ¬ stock < 0 ∧
      p = { id_producto := nuevoId db.productos
            nombre := (body.nombre.getD "").trim
            precio := round2 precio
            activo := true
            stock := stock } ∧
      db2 = { db with productos := db.productos ++ [p] } := by
  rw [postProducto] at h
  by_cases h1 : body.nombre = none ∨ body.nombre = some "" ∨
      body.precio = none ∨ body.stock = none
  · rw [if_pos h1] at h
    simp at h
  · rw [if_neg h1] at h
    cases hpr : body.precio with
    | none =>
      rw [hpr] at h
      simp at h
    | some v =>
      rw [hpr] at h
      cases v with
      | num precio =>
        simp only [] at h
        by_cases h2 : precio < 0
        · rw [if_pos h2] at h
          simp at h
        · rw [if_neg h2] at h
          cases hst : body.stock with
          | none =>
            rw [hst] at h
            simp at h
          | some w =>
            rw [hst] at h
            cases w with
            | num stock =>
              simp only [] at h
              by_cases h3 : stock.den ≠ 1 ∨ stock < 0
              · rw [if_pos h3] at h
                simp at h
              · rw [if_neg h3] at h
                push_neg at h3
                simp only [Prod.mk.injEq, Except.ok.injEq] at h
                obtain ⟨rfl, rfl⟩ := h
                exact ⟨precio, stock, rfl, rfl, h2, h3.1, not_lt.mpr h3.2, rfl, rfl⟩
            | str s =>
              simp at h
            | jbool b =>
              simp at h
            | jnull =>
              simp at h
      | str s =>
        simp at h
      | jbool b =>
        simp at h
      | jnull =>
        simp at h

theorem putProducto_inv {body : PutBody} {db : DB} {p2 : Producto} {db2 : DB}
    (h : putProducto body db = (.ok p2, db2)) :
    ∃ t ps2, body.id_producto = some t ∧ t ≠ 0 ∧
      actualizarPrimero (aplicarCambios body) t db.productos = some (p2, ps2) ∧
      db2 = { db with productos := ps2 } := by
  rw [putProducto] at h
  by_cases hid : body.id_producto = none ∨ body.id_producto = some 0
  · rw [if_pos hid] at h
    simp at h
  · rw [if_neg hid] at h
    push_neg at hid
    cases ha : actualizarPrimero (aplicarCambios body)
        (body.id_producto.getD 0) db.productos with
    | none =>
      rw [ha] at h
      simp at h
    | some r2 =>
      obtain ⟨q, ps2⟩ := r2
      rw [ha] at h
      simp only [Prod.mk.injEq, Except.ok.injEq] at h
      obtain ⟨rfl, rfl⟩ := h
      cases hb : body.id_producto with
      | none => exact absurd hb hid.1
      | some t =>
        rw [hb] at ha
        simp only [Option.getD_some] at ha
        refine ⟨t, ps2, rfl, ?_, ha, rfl⟩
        intro h0
        exact hid.2 (by rw [hb, h0])

theorem deleteProducto_inv {body : DeleteBody} {db : DB} {r : Unit} {db1 : DB}
    (h : deleteProducto body db = (.ok r, db1)) :
    ∃ t q ps2, body.id_producto = some t ∧ t ≠ 0 ∧
      actualizarPrimero (fun p => { p with activo := false }) t db.productos =
        some (q, ps2) ∧
      db1 = { db with productos := ps2 } := by
  rw [deleteProducto] at h
  by_cases hid : body.id_producto = none ∨ body.id_producto = some 0
  · rw [if_pos hid] at h
    simp at h
  · rw [if_neg hid] at h
    push_neg at hid
    cases ha : actualizarPrimero (fun p => { p with activo := false })
        (body.id_producto.getD 0) db.productos with
    | none =>
      rw [ha] at h
      simp at h
    | some r2 =>
      obtain ⟨q, ps2⟩ := r2
      rw [ha] at h
      simp only [Prod.mk.injEq, Except.ok.injEq] at h
      obtain ⟨-, rfl⟩ := h
      cases hb : body.id_producto with
      | none => exact absurd hb hid.1
      | some t =>
        rw [hb] at ha
        simp only [Option.getD_some] at ha
        refine ⟨t, q, ps2, rfl, ?_, ha, rfl⟩
        intro h0
        exact hid.2 (by rw [hb, h0])

theorem postVenta_inv {body : VentaBody} {db : DB} {v : Venta} {db2 : DB}
    (h : postVenta body db = (.ok v, db2)) :
    ∃ items ds, body.items = some items ∧ items ≠ [] ∧
      items.all itemValido = true ∧
      buildDetalles db.productos items = .ok ds ∧
      v = { id_usuario := body.id_usuario, items := ds,
            total := round2 (ds.foldl (fun acc d => acc + d.subtotal) 0) } ∧
      db2 = { productos := descontarStock db.productos ds,
              ventas := db.ventas ++ [v] } := by
  rw [postVenta] at h
  cases hi : body.items with
  | none =>
    rw [hi] at h
    simp at h
  | some items =>
    rw [hi] at h
    simp only [] at h
    by_cases hne : items = []
    · rw [if_pos hne] at h
      simp at h
    · rw [if_neg hne] at h
      by_cases hall : items.all itemValido = true
      · rw [if_pos hall] at h
        cases hbd : buildDetalles db.productos items with
        | error e =>
          rw [hbd] at h
          simp at h
        | ok ds =>
          rw [hbd] at h
          simp only [Prod.mk.injEq, Except.ok.injEq] at h
          obtain ⟨rfl, rfl⟩ := h
          exact ⟨items, ds, rfl, hne, hall, hbd, rfl, rfl⟩
      · rw [if_neg hall] at h
        simp at h

theorem postVenta_ok_eval {body : VentaBody} {db : DB} {items : List ItemVenta}
    {ds : List DetalleItem}
    (hi : body.items = some items) (hne : items ≠ [])
    (hall : items.all itemValido = true)
    (hbd : buildDetalles db.productos items = .ok ds) :
    postVenta body db =
      (.ok { id_usuario := body.id_usuario, items := ds,
             total := round2 (ds.foldl (fun acc d => acc + d.subtotal) 0) },
       { productos := descontarStock db.productos ds
         ventas := db.ventas ++
           [{ id_usuario := body.id_usuario, items := ds,
              total := round2 (ds.foldl (fun acc d => acc + d.subtotal) 0) }] }) := by
  rw [postVenta]
  simp only [hi, if_neg hne, if_pos hall, hbd]

theorem postVenta_error_eval {body : VentaBody} {db : DB} {items : List ItemVenta}
    {e : ApiError}
    (hi : body.items = some items) (hne : items ≠ [])
    (hall : items.all itemValido = true)
    (hbd : buildDetalles db.productos items = .error e) :
    postVenta body db = (.error e, db) := by
  rw [postVenta]
  simp only [hi, if_neg hne, if_pos hall, hbd]

theorem postVenta_error_state {body : VentaBody} {db : DB} {e : ApiError} {db2 : DB}
    (h : postVenta body db = (.error e, db2)) : db2 = db := by
  rw [postVenta] at h
  cases hi : body.items with
  | none =>
    rw [hi] at h
    simp only [Prod.mk.injEq] at h
    exact h.2.symm
  | some items =>
    rw [hi] at h
    simp only [] at h
    by_cases hne : items = []
    · rw [if_pos hne] at h
      simp only [Prod.mk.injEq] at h
      exact h.2.symm
    · rw [if_neg hne] at h
      by_cases hall : items.all itemValido = true
      · rw [if_pos hall] at h
        cases hbd : buildDetalles db.productos items with
        | error e2 =>
          rw [hbd] at h
          simp only [Prod.mk.injEq] at h
          exact h.2.symm
        | ok ds =>
          rw [hbd] at h
          simp only [Prod.mk.injEq] at h
          exact absurd h.1 (by simp)
      · rw [if_neg hall] at h
        simp only [Prod.mk.injEq] at h
        exact h.2.symm

/-! The claims. -/

/-- C1: record-sale is all-or-nothing.  Whenever `POST /venta` answers with
any error (payload validation, existence or active lookup, or the stock
check), the persisted state is exactly the state before the call: no
product's stock changed, no product document was written, and no sale was
appended.  Stock is checked for all items (`buildDetalles`, which never
mutates the snapshot) before any decrement (`descontarStock`, reached only
on the success path). -/
theorem c1_record_sale_all_or_nothing (body : VentaBody) (db : DB) (e : ApiError)
    (h : (postVenta body db).1 = .error e) : (postVenta body db).2 = db := by
  have heq : postVenta body db = ((postVenta body db).1, (postVenta body db).2) := rfl
  rw [h] at heq
  exact postVenta_error_state heq

/-- C1 witness: an empty cart is rejected and the state is untouched. -/
theorem c1_record_sale_all_or_nothing_witness :
    (postVenta ⟨some [], none⟩ ⟨[⟨1, "A", 10, true, 2⟩], []⟩).2 =
      ⟨[⟨1, "A", 10, true, 2⟩], []⟩ :=
  c1_record_sale_all_or_nothing ⟨some [], none⟩ ⟨[⟨1, "A", 10, true, 2⟩], []⟩
    (.validation "El carrito esta vacio o el formato es incorrecto.") rfl

/-- C5: every successful `POST /producto` assigns the id
`max(existing ids) + 1` (1 on an empty collection).  Since deactivated rows
stay in the collection, the new id is strictly above every existing id —
active or not — so an id is never reused after deactivation. -/
theorem c5_sequential_id (body : ProductoBody) (db : DB) (p : Producto) (db2 : DB)
    (h : postProducto body db = (.ok p, db2)) : asignacionId db p db2 := by
  obtain ⟨precio, stock, _, _, _, _, _, hp, hdb2⟩ := postProducto_inv h
  have hid : p.id_producto = nuevoId db.productos := by rw [hp]
  obtain ⟨hnil, hlt, hmax⟩ := nuevoId_spec db.productos
  refine ⟨?_, ?_, ?_, by rw [hdb2]⟩
  · intro h0
    rw [hid, hnil h0]
  · intro q hq
    rw [hid]
    exact hlt q hq
  · intro h0
    obtain ⟨q, hq, he⟩ := hmax h0
    exact ⟨q, hq, by rw [hid, he]⟩

/-- C5 witness: on a collection whose ids are 1 and 3 (the latter
deactivated), the created product receives id 4 = 3 + 1 and is appended. -/
theorem c5_sequential_id_witness :
    asignacionId ⟨[⟨1, "A", 10, true, 5⟩, ⟨3, "B", 4, false, 0⟩], []⟩
      ⟨4, "C".trim, 2, true, 1⟩
      ⟨[⟨1, "A", 10, true, 5⟩, ⟨3, "B", 4, false, 0⟩, ⟨4, "C".trim, 2, true, 1⟩], []⟩ :=
  c5_sequential_id ⟨some "C", some (.num 2), some (.num 1)⟩
    ⟨[⟨1, "A", 10, true, 5⟩, ⟨3, "B", 4, false, 0⟩], []⟩
    ⟨4, "C".trim, 2, true, 1⟩
    ⟨[⟨1, "A", 10, true, 5⟩, ⟨3, "B", 4, false, 0⟩, ⟨4, "C".trim, 2, true, 1⟩], []⟩
    (by
      norm_num [postProducto, nuevoId, round2]
      all_goals simp)

/-- C7: `POST /producto` answers 400 (ValidationError) and leaves the state
untouched whenever the name is the empty string, or the price is not a
non-negative number, or the stock is not a non-negative integer. -/
theorem c7_create_validation (body : ProductoBody) (db : DB)
    (h : body.nombre = some "" ∨
      (¬ ∃ q, body.precio = some (.num q) ∧ 0 ≤ q) ∨
      (¬ ∃ q, body.stock = some (.num q) ∧ q.den = 1 ∧ 0 ≤ q)) :
    statusOf (postProducto body db).1 = 400 ∧ (postProducto body db).2 = db := by
  suffices hs : ∃ m, postProducto body db = (.error (.validation m), db) by
    obtain ⟨m, hm⟩ := hs
    rw [hm]
    exact ⟨rfl, rfl⟩
  by_cases h1 : body.nombre = none ∨ body.nombre = some "" ∨
      body.precio = none ∨ body.stock = none
  · exact ⟨_, by rw [postProducto, if_pos h1]⟩
  · push_neg at h1
    rcases h with h | h | h
    · exact absurd h h1.2.1
    · cases hpr : body.precio with
      | none => exact absurd hpr h1.2.2.1
      | some v =>
        cases v with
        | num precio =>
          by_cases h2 : precio < 0
          · refine ⟨"El precio debe ser un numero positivo.", ?_⟩
            rw [postProducto, if_neg (by push_neg; exact h1)]
            simp only [hpr, if_pos h2]
          · exact absurd ⟨precio, hpr, not_lt.mp h2⟩ h
        | str s =>
          refine ⟨"El precio debe ser un numero positivo.", ?_⟩
          rw [postProducto, if_neg (by push_neg; exact h1)]
          simp only [hpr]
        | jbool b =>
          refine ⟨"El precio debe ser un numero positivo.", ?_⟩
          rw [postProducto, if_neg (by push_neg; exact h1)]
          simp only [hpr]
        | jnull =>
          refine ⟨"El precio debe ser un numero positivo.", ?_⟩
          rw [postProducto, if_neg (by push_neg; exact h1)]
          simp only [hpr]
    · cases hpr : body.precio with
      | none => exact absurd hpr h1.2.2.1
      | some v =>
        cases v with
        | num precio =>
          by_cases h2 : precio < 0
          · refine ⟨"El precio debe ser un numero positivo.", ?_⟩
            rw [postProducto, if_neg (by push_neg; exact h1)]
            simp only [hpr, if_pos h2]
          · cases hst : body.stock with
            | none => exact absurd hst h1.2.2.2
            | some w =>
              cases w with
              | num stock =>
                by_cases h3 : stock.den ≠ 1 ∨ stock < 0
                · refine ⟨"El stock debe ser un entero >= 0.", ?_⟩
                  rw [postProducto, if_neg (by push_neg; exact h1)]
                  simp only [hpr, if_neg h2, hst, if_pos h3]
                · push_neg at h3
                  exact absurd ⟨stock, hst, h3.1, h3.2⟩ h
              | str s =>
                refine ⟨"El stock debe ser un entero >= 0.", ?_⟩
                rw [postProducto, if_neg (by push_neg; exact h1)]
                simp only [hpr, if_neg h2, hst]
              | jbool b =>
                refine ⟨"El stock debe ser un entero >= 0.", ?_⟩
                rw [postProducto, if_neg (by push_neg; exact h1)]
                simp only [hpr, if_neg h2, hst]
              | jnull =>
                refine ⟨"El stock debe ser un entero >= 0.", ?_⟩
                rw [postProducto, if_neg (by push_neg; exact h1)]
                simp only [hpr, if_neg h2, hst]
        | str s =>
          refine ⟨"El precio debe ser un numero positivo.", ?_⟩
          rw [postProducto, if_neg (by push_neg; exact h1)]
          simp only [hpr]
        | jbool b =>
          refine ⟨"El precio debe ser un numero positivo.", ?_⟩
          rw [postProducto, if_neg (by push_neg; exact h1)]
          simp only [hpr]
        | jnull =>
          refine ⟨"El precio debe ser un numero positivo.", ?_⟩
          rw [postProducto, if_neg (by push_neg; exact h1)]
          simp only [hpr]

/-- C7 witness: an empty name is rejected with 400 and nothing is appended. -/
theorem c7_create_validation_witness :
    statusOf (postProducto ⟨some "", some (.num 1), some (.num 1)⟩
        ⟨[⟨1, "A", 10, true, 5⟩], []⟩).1 = 400 ∧
    (postProducto ⟨some "", some (.num 1), some (.num 1)⟩
        ⟨[⟨1, "A", 10, true, 5⟩], []⟩).2 = ⟨[⟨1, "A", 10, true, 5⟩], []⟩ :=
  c7_create_validation ⟨some "", some (.num 1), some (.num 1)⟩
    ⟨[⟨1, "A", 10, true, 5⟩], []⟩ (Or.inl rfl)

/-- C9: deactivate-product is idempotent: after a successful
`DELETE /producto`, repeating the same call succeeds again and returns the
exact same product collection (the found row is set to `activo = false`
again, which changes nothing). -/
theorem c9_deactivate_idempotent (body : DeleteBody) (db : DB) (r : Unit) (db1 : DB)
    (h : deleteProducto body db = (.ok r, db1)) :
    deleteProducto body db1 = (.ok r, db1) := by
  obtain ⟨t, q, ps2, hb, ht, ha, hdb1⟩ := deleteProducto_inv h
  have hidem : actualizarPrimero (fun p => { p with activo := false }) t ps2 =
      some (q, ps2) :=
    actualizarPrimero_idem (fun _ => rfl) (fun _ => rfl) ha
  cases r
  subst hdb1
  rw [deleteProducto, if_neg (by rw [hb]; simp [ht])]
  simp only [hb, Option.getD_some]
  simp only [hidem]

/-- C9 witness: deactivating id 1 in a state where it is already inactive
succeeds and returns the state unchanged. -/
theorem c9_deactivate_idempotent_witness :
    deleteProducto ⟨some 1⟩ ⟨[⟨1, "A", 10, false, 5⟩], []⟩ =
      (.ok (), ⟨[⟨1, "A", 10, false, 5⟩], []⟩) :=
  c9_deactivate_idempotent ⟨some 1⟩ ⟨[⟨1, "A", 10, true, 5⟩], []⟩ ()
    ⟨[⟨1, "A", 10, false, 5⟩], []⟩
    (by
      norm_num [deleteProducto, actualizarPrimero]
      all_goals simp)

/-- C6: `PUT /producto` patches only the supplied fields of the addressed
product — name trimmed, price re-rounded to 2 decimals, stock coerced with
`parseInt`, active coerced to boolean — and leaves every unsupplied field
and every other product (and the sales ledger) unchanged. -/
theorem c6_update_frame (body : PutBody) (db : DB) (t : Int) (p2 : Producto) (db2 : DB)
    (hnd : (db.productos.map (fun p => p.id_producto)).Nodup)
    (hid : body.id_producto = some t)
    (h : putProducto body db = (.ok p2, db2)) :
    db2.ventas = db.ventas ∧
    db2.productos = db.productos.map (fun p =>
      if p.id_producto = t then
        { id_producto := p.id_producto
          nombre := match body.nombre with
            | some s => s.trim
            | none => p.nombre
          precio := match body.precio with
            | some q => round2 q
            | none => p.precio
          activo := match body.activo with
            | some b => b
            | none => p.activo
          stock := match body.stock with
            | some q => ((jsParseInt q : Int) : ℚ)
            | none => p.stock }
      else p) := by
  obtain ⟨t2, ps2, hb2, ht2, ha, hdb2⟩ := putProducto_inv h
  rw [hid] at hb2
  have htt : t = t2 := by simpa using hb2
  subst htt
  subst hdb2
  refine ⟨rfl, ?_⟩
  show ps2 = _
  rw [actualizarPrimero_eq_map hnd ha]
  apply List.map_congr_left
  intro p _
  by_cases hc : p.id_producto = t
  · rw [if_pos hc, if_pos hc, aplicarCambios_eq]
  · rw [if_neg hc, if_neg hc]

/-- C6 witness: the spec scenario — an update carrying only the id and
`stock: 0` sets the stock to exactly 0 and leaves name, price, active and
the rest of the state untouched. -/
theorem c6_update_frame_witness :
    ([] : List Venta) = [] ∧
    [(⟨1, "A", 10, true, 0⟩ : Producto)] =
      [(⟨1, "A", 10, true, 5⟩ : Producto)].map (fun p =>
        if p.id_producto = 1 then
          { id_producto := p.id_producto
            nombre := match (none : Option String) with
              | some s => s.trim
              | none => p.nombre
            precio := match (none : Option ℚ) with
              | some q => round2 q
              | none => p.precio
            activo := match (none : Option Bool) with
              | some b => b
              | none => p.activo
            stock := match (some 0 : Option ℚ) with
              | some q => ((jsParseInt q : Int) : ℚ)
              | none => p.stock }
        else p) :=
  c6_update_frame ⟨some 1, none, none, some 0, none⟩ ⟨[⟨1, "A", 10, true, 5⟩], []⟩ 1
    ⟨1, "A", 10, true, 0⟩ ⟨[⟨1, "A", 10, true, 0⟩], []⟩
    (by simp) rfl
    (by
      norm_num [putProducto, actualizarPrimero, aplicarCambios, jsParseInt]
      all_goals simp)

/-- C4: for every sale produced by `POST /venta`, each line item's subtotal
is quantity × unit price rounded to 2 decimals, and the sale total is the
sum of the line subtotals rounded to 2 decimals. -/
theorem c4_sale_totals (body : VentaBody) (db : DB) (v : Venta) (db2 : DB)
    (h : postVenta body db = (.ok v, db2)) : ventaBienCalculada v := by
  obtain ⟨items, ds, hi, hne, hall, hbd, hv, hdb2⟩ := postVenta_inv h
  subst hv
  constructor
  · intro d hd
    obtain ⟨p, _, _, _, _, hpu, _, hsub⟩ := buildDetalles_mem hbd d hd
    rw [hsub, hpu, mul_comm]
  · show round2 (ds.foldl (fun acc d => acc + d.subtotal) 0) =
      round2 ((ds.map (fun d => d.subtotal)).sum)
    congr 1
    rw [foldl_subtotal_sum, zero_add]

/-- C4 witness: the sale of 2 units at unit price 10 carries subtotal 20 and
total 20. -/
theorem c4_sale_totals_witness :
    ventaBienCalculada ⟨none, [⟨1, "A", 2, 10, 20⟩], 20⟩ :=
  c4_sale_totals ⟨some [⟨some 1, some 2⟩], none⟩ ⟨[⟨1, "A", 10, true, 5⟩], []⟩
    ⟨none, [⟨1, "A", 2, 10, 20⟩], 20⟩
    ⟨[⟨1, "A", 10, true, 3⟩], [⟨none, [⟨1, "A", 2, 10, 20⟩], 20⟩]⟩
    (by
      norm_num [postVenta, buildDetalles, descontarStock, actualizarPrimero,
        itemValido, round2])

/-- C8 counterexample: the claim promises a 404 for every items list that
references an unknown or deactivated id.  But with product 1 at stock 2 and
the cart `[{id 1, qty 5}, {id 99, qty 1}]` — id 99 unknown — the handler
hits the stock conflict of the first line before resolving id 99 and
answers 409, not 404. -/
theorem c8_counterexample :
    ((⟨[⟨1, "A", 10, true, 2⟩], []⟩ : DB).productos.all
        (fun p => p.id_producto != 99)) = true ∧
    statusOf (postVenta ⟨some [⟨some 1, some 5⟩, ⟨some 99, some 1⟩], none⟩
        ⟨[⟨1, "A", 10, true, 2⟩], []⟩).1 = 409 ∧
    statusOf (postVenta ⟨some [⟨some 1, some 5⟩, ⟨some 99, some 1⟩], none⟩
        ⟨[⟨1, "A", 10, true, 2⟩], []⟩).1 ≠ 404 := by
  have hmain : statusOf (postVenta ⟨some [⟨some 1, some 5⟩, ⟨some 99, some 1⟩], none⟩
      ⟨[⟨1, "A", 10, true, 2⟩], []⟩).1 = 409 := by
    norm_num [postVenta, buildDetalles, itemValido, statusOf, ApiError.status]
    rw [if_neg (by simp : ¬([(⟨some 1, some 5⟩ : ItemVenta), ⟨some 99, some 1⟩] = []))]
  exact ⟨rfl, hmain, by rw [hmain]; norm_num⟩

/-- C8 (amended): after deactivate-product on an id, no product with that id
appears in list-active-products any more (given unique ids); and record-sale
answers 404 with no mutation when the offending unknown-or-inactive
reference is the first failure the check loop meets (items that precede it
resolve to active products with sufficient stock).  An earlier failing item
can preempt the 404 with its own error, as the counterexample shows. -/
theorem c8_amended_deactivation_and_404 :
    (∀ body db r db1 t, (db.productos.map (fun p => p.id_producto)).Nodup →
      body.id_producto = some t →
      deleteProducto body db = (.ok r, db1) →
      sinProducto (getProductos db1) t) ∧
    (∀ body db items pre bad rest,
      body.items = some items → items = pre ++ bad :: rest →
      items.all itemValido = true →
      (∀ j ∈ pre, ∃ p,
        db.productos.find?
          (fun q2 => q2.id_producto == j.id_producto.getD 0 && q2.activo) = some p ∧
        ¬ p.stock < j.cantidad.getD 0) →
      (∀ p ∈ db.productos, ¬ (p.id_producto = bad.id_producto.getD 0 ∧ p.activo = true)) →
      statusOf (postVenta body db).1 = 404 ∧ (postVenta body db).2 = db) := by
  constructor
  · intro body db r db1 t hnd hid h
    obtain ⟨t2, q, ps2, hb, ht, ha, hdb1⟩ := deleteProducto_inv h
    rw [hid] at hb
    have htt : t = t2 := by simpa using hb
    subst htt
    subst hdb1
    intro p hp
    have hp2 : p ∈ ps2 ∧ p.activo = true := by
      have hm := List.mem_filter.mp hp
      exact ⟨hm.1, hm.2⟩
    rw [actualizarPrimero_eq_map hnd ha] at hp2
    obtain ⟨p0, hp0, hpeq⟩ := List.mem_map.mp hp2.1
    by_cases hc : p0.id_producto = t
    · exfalso
      rw [if_pos hc] at hpeq
      have hact := hp2.2
      rw [← hpeq] at hact
      simp at hact
    · rw [if_neg hc] at hpeq
      rw [← hpeq]
      exact hc
  · intro body db items pre bad rest hi hitems hall hpre hbad
    have hfind : db.productos.find?
        (fun q2 => q2.id_producto == bad.id_producto.getD 0 && q2.activo) = none := by
      rw [List.find?_eq_none]
      intro p hp hpt
      simp only [Bool.and_eq_true, beq_iff_eq] at hpt
      exact hbad p hp ⟨hpt.1, hpt.2⟩
    have hne : items ≠ [] := by
      rw [hitems]
      simp
    have herr := buildDetalles_error_notFound rest hpre hfind
    rw [← hitems] at herr
    have heval := postVenta_error_eval hi hne hall herr
    rw [heval]
    exact ⟨rfl, rfl⟩

/-- C8 witness: deactivating product 1 removes it from the active listing;
and a one-item sale naming the unknown id 99 is answered 404 and leaves the
state unchanged. -/
theorem c8_amended_deactivation_and_404_witness :
    sinProducto (getProductos ⟨[⟨1, "A", 10, false, 5⟩], []⟩) 1 ∧
    (statusOf (postVenta ⟨some [⟨some 99, some 1⟩], none⟩
        ⟨[⟨1, "A", 10, true, 5⟩], []⟩).1 = 404 ∧
     (postVenta ⟨some [⟨some 99, some 1⟩], none⟩
        ⟨[⟨1, "A", 10, true, 5⟩], []⟩).2 = ⟨[⟨1, "A", 10, true, 5⟩], []⟩) :=
  ⟨c8_amended_deactivation_and_404.1 ⟨some 1⟩ ⟨[⟨1, "A", 10, true, 5⟩], []⟩ ()
      ⟨[⟨1, "A", 10, false, 5⟩], []⟩ 1 (by simp) rfl
      (by
        norm_num [deleteProducto, actualizarPrimero]
        all_goals simp),
   c8_amended_deactivation_and_404.2 ⟨some [⟨some 99, some 1⟩], none⟩
      ⟨[⟨1, "A", 10, true, 5⟩], []⟩ [⟨some 99, some 1⟩] [] ⟨some 99, some 1⟩ []
      rfl rfl (by norm_num [itemValido]) (by simp) (by norm_num)⟩

/-- C10: when a sale lists the same product in several line items, every
line's stock check runs independently against the one-time snapshot (each
line's quantity being at most the snapshot stock suffices — no running
remainder is kept), while the decrement phase subtracts the combined
quantity of all those lines from the product's stock. -/
theorem c10_duplicate_lines_snapshot_check (body : VentaBody) (db : DB)
    (p : Producto) (items : List ItemVenta)
    (hnd : (db.productos.map (fun q => q.id_producto)).Nodup)
    (hp : p ∈ db.productos) (hact : p.activo = true) (hid0 : p.id_producto ≠ 0)
    (hi : body.items = some items) (hne : items ≠ [])
    (hall : ∀ it ∈ items, it.id_producto = some p.id_producto ∧
      ∃ c, it.cantidad = some c ∧ 0 < c ∧ c ≤ p.stock) :
    (postVenta body db).1.isOk = true ∧
    stockDe (postVenta body db).2.productos p.id_producto
      (p.stock - (items.map (fun it => it.cantidad.getD 0)).sum) := by
  have hvalid : items.all itemValido = true := by
    rw [List.all_eq_true]
    intro it hit
    obtain ⟨hid, c, hc, hcpos, _⟩ := hall it hit
    simp only [itemValido, hid, hc]
    simp [hid0, hcpos.ne', not_le.mpr hcpos]
  have hfind : ∀ it ∈ items, ∃ q,
      db.productos.find?
        (fun q2 => q2.id_producto == it.id_producto.getD 0 && q2.activo) = some q ∧
      ¬ q.stock < it.cantidad.getD 0 := by
    intro it hit
    obtain ⟨hid, c, hc, _, hcle⟩ := hall it hit
    refine ⟨p, ?_, ?_⟩
    · rw [hid]
      simp only [Option.getD_some]
      exact find?_active_of_nodup hnd hp hact
    · rw [hc]
      simp only [Option.getD_some]
      exact not_lt.mpr hcle
  obtain ⟨ds, hds⟩ := buildDetalles_ok_of hfind
  have heval := postVenta_ok_eval hi hne hvalid hds
  obtain ⟨hids, hcants⟩ := buildDetalles_ids hds
  have hdsid : ∀ d ∈ ds, d.id_producto = p.id_producto := by
    intro d hd
    have hmem : d.id_producto ∈ ds.map (fun d2 => d2.id_producto) :=
      List.mem_map_of_mem _ hd
    rw [hids] at hmem
    obtain ⟨it, hit, heq⟩ := List.mem_map.mp hmem
    rw [← heq, (hall it hit).1]
    rfl
  constructor
  · rw [heval]
    rfl
  · rw [heval]
    show stockDe (descontarStock db.productos ds) p.id_producto _
    rw [descontar_eq_map hnd]
    intro x hx hxid
    obtain ⟨p0, hp0, hx0⟩ := List.mem_map.mp hx
    have hidp0 : p0.id_producto = p.id_producto := by
      rw [← hx0] at hxid
      exact hxid
    have hpp0 : p0 = p := List.inj_on_of_nodup_map hnd hp0 hp hidp0
    rw [← hx0]
    show p0.stock - sumCant ds p0.id_producto = p.stock - _
    rw [hpp0]
    congr 1
    rw [sumCant_all hdsid, hcants]

/-- C10 witness: product 1 has stock 3; two lines of quantity 2 each pass
the check (2 ≤ 3 twice, against the snapshot) and the sale goes through,
leaving stock 3 − (2 + 2) = −1. -/
theorem c10_duplicate_lines_snapshot_check_witness :
    (postVenta ⟨some [⟨some 1, some 2⟩, ⟨some 1, some 2⟩], none⟩
        ⟨[⟨1, "A", 10, true, 3⟩], []⟩).1.isOk = true ∧
    stockDe (postVenta ⟨some [⟨some 1, some 2⟩, ⟨some 1, some 2⟩], none⟩
        ⟨[⟨1, "A", 10, true, 3⟩], []⟩).2.productos 1
      (3 - (([(⟨some 1, some 2⟩ : ItemVenta), ⟨some 1, some 2⟩].map
        (fun it => it.cantidad.getD 0)).sum)) :=
  c10_duplicate_lines_snapshot_check
    ⟨some [⟨some 1, some 2⟩, ⟨some 1, some 2⟩], none⟩
    ⟨[⟨1, "A", 10, true, 3⟩], []⟩ ⟨1, "A", 10, true, 3⟩
    [⟨some 1, some 2⟩, ⟨some 1, some 2⟩]
    (by simp) (by simp) rfl (by norm_num) rfl (by simp)
    (by
      intro it hit
      simp only [List.mem_cons, List.not_mem_nil, or_false, or_self] at hit
      subst hit
      exact ⟨rfl, 2, rfl, by norm_num, by norm_num⟩)

/-- C3 counterexample: the quantity 5/2 is positive but not an integer
(its denominator is 2), yet the request is accepted with 201 — the handler
checks only `!cantidad || cantidad <= 0` and never `Number.isInteger`. -/
theorem c3_counterexample :
    ((5 : ℚ) / 2).den ≠ 1 ∧ (0 : ℚ) < 5 / 2 ∧
    statusOf (postVenta ⟨some [⟨some 1, some (5 / 2)⟩], none⟩
        ⟨[⟨1, "A", 10, true, 10⟩], []⟩).1 = 201 := by
  refine ⟨by norm_num [Rat.den], by norm_num, ?_⟩
  norm_num [postVenta, buildDetalles, itemValido, statusOf, descontarStock,
    actualizarPrimero, round2]

/-- C3 (amended): `POST /venta` answers 400 (ValidationError) and leaves the
state untouched for every request whose `items` is absent/not an array or
empty, or in which some entry's `id_producto` is missing or 0, or some
entry's `cantidad` is missing or not positive.  (A positive non-integer
quantity is *not* rejected, as the counterexample shows.) -/
theorem c3_amended_venta_validation (body : VentaBody) (db : DB)
    (h : body.items = none ∨ body.items = some [] ∨
      ∃ items it, body.items = some items ∧ it ∈ items ∧
        (it.id_producto = none ∨ it.id_producto = some 0 ∨
         it.cantidad = none ∨ ∃ c, it.cantidad = some c ∧ c ≤ 0)) :
    statusOf (postVenta body db).1 = 400 ∧ (postVenta body db).2 = db := by
  suffices hs : ∃ m, postVenta body db = (.error (.validation m), db) by
    obtain ⟨m, hm⟩ := hs
    rw [hm]
    exact ⟨rfl, rfl⟩
  rcases h with h | h | h
  · refine ⟨"El carrito esta vacio o el formato es incorrecto.", ?_⟩
    rw [postVenta]
    simp only [h]
  · refine ⟨"El carrito esta vacio o el formato es incorrecto.", ?_⟩
    rw [postVenta]
    simp only [h, if_pos]
  · obtain ⟨items, it, hi, hit, hbadit⟩ := h
    have hfalse : itemValido it = false := by
      cases hidp : it.id_producto with
      | none => simp [itemValido, hidp]
      | some pid =>
        cases hcant : it.cantidad with
        | none => simp [itemValido, hidp, hcant]
        | some c2 =>
          simp only [itemValido, hidp, hcant]
          rcases hbadit with h1 | h1 | h1 | ⟨c, hc, hcle⟩
          · rw [h1] at hidp
            simp at hidp
          · rw [h1] at hidp
            have hpid : pid = 0 := by simpa using hidp.symm
            simp [hpid]
          · rw [h1] at hcant
            simp at hcant
          · rw [hc] at hcant
            have hcc : c2 = c := by simpa using hcant.symm
            subst hcc
            rw [decide_eq_true hcle]
            simp
    have hne : items ≠ [] := by
      intro h0
      rw [h0] at hit
      cases hit
    have hallf : ¬ items.all itemValido = true := by
      intro hb
      have := List.all_eq_true.mp hb it hit
      rw [hfalse] at this
      cases this
    refine ⟨"Cada item debe tener id_producto y cantidad > 0.", ?_⟩
    rw [postVenta]
    simp only [hi, if_neg hne, if_neg hallf]

/-- C3 witness: an entry with quantity 0 is rejected with 400 and the state
is untouched. -/
theorem c3_amended_venta_validation_witness :
    statusOf (postVenta ⟨some [⟨some 1, some 0⟩], none⟩
        ⟨[⟨1, "A", 10, true, 5⟩], []⟩).1 = 400 ∧
    (postVenta ⟨some [⟨some 1, some 0⟩], none⟩
        ⟨[⟨1, "A", 10, true, 5⟩], []⟩).2 = ⟨[⟨1, "A", 10, true, 5⟩], []⟩ :=
  c3_amended_venta_validation ⟨some [⟨some 1, some 0⟩], none⟩
    ⟨[⟨1, "A", 10, true, 5⟩], []⟩
    (Or.inr (Or.inr ⟨[⟨some 1, some 0⟩], ⟨some 1, some 0⟩, rfl,
      List.mem_singleton.mpr rfl,
      Or.inr (Or.inr (Or.inr ⟨0, rfl, le_refl 0⟩))⟩))

/-- C2 counterexample: the invariant `stock >= 0` is not preserved by every
operation.  `PUT /producto` coerces the supplied stock with `parseInt` but
never checks its sign, so stock −1 is stored; and `POST /venta` with the
same product in two line items checks each line against the snapshot but
decrements the combined quantity, driving stock 3 to −1. -/
theorem c2_counterexample :
    ((putProducto ⟨some 1, none, none, some (-1), none⟩
        ⟨[⟨1, "A", 10, true, 5⟩], []⟩).2.productos.any
      (fun p => decide (p.stock < 0))) = true ∧
    ((postVenta ⟨some [⟨some 1, some 2⟩, ⟨some 1, some 2⟩], none⟩
        ⟨[⟨1, "A", 10, true, 3⟩], []⟩).2.productos.any
      (fun p => decide (p.stock < 0))) = true := by
  constructor
  · norm_num [putProducto, actualizarPrimero, aplicarCambios, jsParseInt]
    rw [if_neg (by simp : ¬((some 1 : Option Int) = none))]
    refine ⟨⟨1, "A", 10, true, -1⟩, by simp, by norm_num⟩
  · norm_num [postVenta, buildDetalles, itemValido, descontarStock,
      actualizarPrimero, round2]
    rw [if_neg
      (by simp : ¬([(⟨some 1, some 2⟩ : ItemVenta), ⟨some 1, some 2⟩] = []))]
    refine ⟨⟨1, "A", 10, true, -1⟩, by simp, by norm_num⟩

/-- C2 (amended): starting from a state where every stock is non-negative,
create-product and deactivate-product always preserve the invariant;
update-product preserves it provided the supplied stock (if any) is
non-negative; and record-sale preserves it provided product ids are unique
and no product id is referenced by more than one line item.  (The two
excluded situations really do produce negative stock — see the
counterexample.) -/
theorem c2_amended_stock_invariant :
    (∀ body db p db2, nonNegStock db.productos →
      postProducto body db = (.ok p, db2) → nonNegStock db2.productos) ∧
    (∀ body db r db1, nonNegStock db.productos →
      deleteProducto body db = (.ok r, db1) → nonNegStock db1.productos) ∧
    (∀ body db p2 db2, nonNegStock db.productos →
      (body.stock = none ∨ ∃ q, body.stock = some q ∧ 0 ≤ q) →
      putProducto body db = (.ok p2, db2) → nonNegStock db2.productos) ∧
    (∀ body db v db2, nonNegStock db.productos →
      (db.productos.map (fun p => p.id_producto)).Nodup →
      ((body.items.getD []).map (fun it => it.id_producto.getD 0)).Nodup →
      postVenta body db = (.ok v, db2) → nonNegStock db2.productos) := by
  refine ⟨?_, ?_, ?_, ?_⟩
  · intro body db p db2 hnn h
    obtain ⟨precio, stock, _, _, _, _, hstnn, hpeq, hdb2⟩ := postProducto_inv h
    rw [hdb2]
    intro x hx
    rcases List.mem_append.mp hx with hx2 | hx2
    · exact hnn x hx2
    · have hxp : x = p := by simpa using hx2
      rw [hxp, hpeq]
      exact not_lt.mp hstnn
  · intro body db r db1 hnn h
    obtain ⟨t, q, ps2, _, _, ha, hdb1⟩ := deleteProducto_inv h
    rw [hdb1]
    intro x hx
    rcases (actualizarPrimero_spec ha).2 x hx with hx2 | ⟨p0, hp0, _, hx2⟩
    · exact hnn x hx2
    · rw [hx2]
      exact hnn p0 hp0
  · intro body db p2 db2 hnn hstockOK h
    obtain ⟨t, ps2, _, _, ha, hdb2⟩ := putProducto_inv h
    rw [hdb2]
    intro x hx
    rcases (actualizarPrimero_spec ha).2 x hx with hx2 | ⟨p0, hp0, _, hx2⟩
    · exact hnn x hx2
    · rw [hx2, aplicarCambios_eq]
      show (0 : ℚ) ≤ (match body.stock with
        | some q => ((jsParseInt q : Int) : ℚ)
        | none => p0.stock : ℚ)
      rcases hstockOK with hn | ⟨qv, hqv, hqnn⟩
      · simp only [hn]
        exact hnn p0 hp0
      · simp only [hqv]
        exact jsParseInt_nonneg hqnn
  · intro body db v db2 hnn hnd hpidnd h
    obtain ⟨items, ds, hi, hne, hall, hbd, hv, hdb2⟩ := postVenta_inv h
    rw [hdb2]
    show nonNegStock (descontarStock db.productos ds)
    rw [descontar_eq_map hnd]
    intro x hx
    obtain ⟨p0, hp0, hx0⟩ := List.mem_map.mp hx
    rw [← hx0]
    show 0 ≤ p0.stock - sumCant ds p0.id_producto
    obtain ⟨hids, _⟩ := buildDetalles_ids hbd
    have hdsnd : (ds.map (fun d => d.id_producto)).Nodup := by
      rw [hi] at hpidnd
      simp only [Option.getD_some] at hpidnd
      rw [hids]
      exact hpidnd
    by_cases hex : ∃ d ∈ ds, d.id_producto = p0.id_producto
    · obtain ⟨d, hd, hdid⟩ := hex
      rw [← hdid, sumCant_single hdsnd hd]
      obtain ⟨q, hq, _, hdq, _, _, hdc, _⟩ := buildDetalles_mem hbd d hd
      have hq0 : p0 = q := List.inj_on_of_nodup_map hnd hp0 hq (by rw [← hdid, hdq])
      rw [hq0]
      exact sub_nonneg.mpr hdc
    · push_neg at hex
      rw [sumCant_zero_of_no_match (fun d hd => hex d hd), sub_zero]
      exact hnn p0 hp0

/-- C2 witness: the four preserved cases on a one-product state with
stock 5 — create (appends stock 2), deactivate, update with stock 0, and a
sale of 2 units — all end with every stock non-negative. -/
theorem c2_amended_stock_invariant_witness :
    nonNegStock [⟨1, "A", 10, true, 5⟩, ⟨2, "B".trim, 3, true, 2⟩] ∧
    nonNegStock [⟨1, "A", 10, false, 5⟩] ∧
    nonNegStock [⟨1, "A", 10, true, 0⟩] ∧
    nonNegStock [⟨1, "A", 10, true, 3⟩] :=
  ⟨c2_amended_stock_invariant.1 ⟨some "B", some (.num 3), some (.num 2)⟩
      ⟨[⟨1, "A", 10, true, 5⟩], []⟩ ⟨2, "B".trim, 3, true, 2⟩
      ⟨[⟨1, "A", 10, true, 5⟩, ⟨2, "B".trim, 3, true, 2⟩], []⟩
      (by norm_num [nonNegStock])
      (by
        norm_num [postProducto, nuevoId, round2]
        all_goals simp),
   c2_amended_stock_invariant.2.1 ⟨some 1⟩ ⟨[⟨1, "A", 10, true, 5⟩], []⟩ ()
      ⟨[⟨1, "A", 10, false, 5⟩], []⟩
      (by norm_num [nonNegStock])
      (by
        norm_num [deleteProducto, actualizarPrimero]
        all_goals simp),
   c2_amended_stock_invariant.2.2.1 ⟨some 1, none, none, some 0, none⟩
      ⟨[⟨1, "A", 10, true, 5⟩], []⟩ ⟨1, "A", 10, true, 0⟩
      ⟨[⟨1, "A", 10, true, 0⟩], []⟩
      (by norm_num [nonNegStock])
      (Or.inr ⟨0, rfl, le_refl 0⟩)
      (by
        norm_num [putProducto, actualizarPrimero, aplicarCambios, jsParseInt]
        all_goals simp),
   c2_amended_stock_invariant.2.2.2 ⟨some [⟨some 1, some 2⟩], none⟩
      ⟨[⟨1, "A", 10, true, 5⟩], []⟩ ⟨none, [⟨1, "A", 2, 10, 20⟩], 20⟩
      ⟨[⟨1, "A", 10, true, 3⟩], [⟨none, [⟨1, "A", 2, 10, 20⟩], 20⟩]⟩
      (by norm_num [nonNegStock]) (by simp) (by simp)
      (by
        norm_num [postVenta, buildDetalles, descontarStock, actualizarPrimero,
          itemValido, round2])⟩

end Tienda

